import Mathlib

/-!
Shallow embedding of the confirmit-fastapi-server components
`VisionAgent` (src/app/agents/vision_agent.py) and `ProgressEmitter`
(src/app/core/progress_emitter.py), together with theorems checking the
natural-language specification against the code.

External collaborators (the Gemini service, PIL image loading, `json.loads`,
the Firestore write, the progress collaborator) are modelled as explicit
oracle parameters returning `Except String _` (an exception carries its
`str(e)` message).  Python numbers are modelled as rationals.
-/

namespace Confirmit

/-! ### Python string primitives, over `String.data` character lists -/

def chars (s : String) : List Char := s.data

def ofChars (l : List Char) : String := String.mk l

/-- Python `str.strip()`: drop whitespace from both ends. -/
def pyStrip (s : String) : String :=
  ofChars ((((chars s).dropWhile Char.isWhitespace).reverse.dropWhile Char.isWhitespace).reverse)

/-- Python `s.startswith(pre)`. -/
def pyStartsWith (s pre : String) : Bool := (chars pre).isPrefixOf (chars s)

/-- Python `s.endswith(suf)`. -/
def pyEndsWith (s suf : String) : Bool := (chars suf).isSuffixOf (chars s)

/-- Python `s[n:]`. -/
def pyDropLeft (s : String) (n : Nat) : String := ofChars ((chars s).drop n)

/-- Python `s[:-n]` for `n > 0`. -/
def pyDropRight (s : String) (n : Nat) : String :=
  ofChars ((chars s).take ((chars s).length - n))

def listContainsSub (sub : List Char) : List Char → Bool
  | [] => sub.isEmpty
  | c :: t => sub.isPrefixOf (c :: t) || listContainsSub sub t

/-- Python `sub in s`. -/
def strContains (s sub : String) : Bool := listContainsSub (chars sub) (chars s)

/-- Python `s.lower()`. -/
def pyLower (s : String) : String := ofChars ((chars s).map Char.toLower)

/-! ### JSON values (results of `json.loads`) -/

/-- JSON values as produced by `json.loads`; numbers as rationals. -/
inductive JVal where
  | jnull
  | jbool (b : Bool)
  | jnum (q : ℚ)
  | jstr (s : String)
  | jarr (l : List JVal)
  | jobj (fields : List (String × JVal))

/-- Python `dict` lookup on the association list of a parsed JSON object. -/
def jget (d : List (String × JVal)) (k : String) : Option JVal :=
  (d.find? (fun p => p.1 == k)).map Prod.snd

/-- Python `k in dict`. -/
def jhas (d : List (String × JVal)) (k : String) : Bool :=
  (d.find? (fun p => p.1 == k)).isSome

/-- Python `dict.get(k, default)`. -/
def jgetD (d : List (String × JVal)) (k : String) (v : JVal) : JVal :=
  (jget d k).getD v

/-- Python `dict[k] = v`: replace the entry when the key is present, else append. -/
def jset (d : List (String × JVal)) (k : String) (v : JVal) : List (String × JVal) :=
  if jhas d k then d.map (fun p => if p.1 == k then (k, v) else p)
  else d ++ [(k, v)]

/-! ### VisionAgent (src/app/agents/vision_agent.py) -/

def primaryModel : String := "models/gemini-2.5-flash"

def secondaryModel : String := "models/gemini-2.5-pro"

/-- The agent's mutable handle state: `self.model_name` and the model wrapped
by `self.model` (a `genai.GenerativeModel` is determined by its model name). -/
structure Agent where
  modelName : String
  model : String
deriving DecidableEq

/-- `VisionAgent.__init__`: `if not api_key: raise ValueError(...)`, then the
handles are set to the primary model.  A missing key is `none`, an empty key
is `some ""`; both are falsy in Python. -/
def mkAgent (apiKey : Option String) : Except String Agent :=
  match apiKey with
  | Option.none => .error "GEMINI_API_KEY is required"
  | some k =>
      if k = "" then .error "GEMINI_API_KEY is required"
      else .ok { modelName := primaryModel, model := primaryModel }

def isErr {α : Type} : Except String α → Bool
  | .error _ => true
  | .ok _ => false

/-- The fallback trigger: `"404" in str(e) or "not found" in str(e).lower()`. -/
def is404 (e : String) : Bool :=
  strContains e "404" || strContains (pyLower e) "not found"

/-- The markdown-fence cleanup applied to `response.text`:
strip, drop a leading seven-character fence marker, drop a trailing
three-character fence marker, strip again. -/
def stripFences (raw : String) : String :=
  let r1 := pyStrip raw
  let r2 := if pyStartsWith r1 "```json" then pyDropLeft r1 7 else r1
  let r3 := if pyEndsWith r2 "```" then pyDropRight r2 3 else r2
  pyStrip r3

/-- `''.join(c for c in amount if c.isdigit() or c == '.')`. -/
def cleanAmount (s : String) : List Char :=
  (chars s).filter (fun c => c.isDigit || c == '.')

/-- Value of a digit string. -/
def digitsVal (l : List Char) : Nat :=
  l.foldl (fun a c => 10 * a + (c.toNat - 48)) 0

/-- Which digit/dot strings Python `float()` accepts: at most one dot and at
least one digit (e.g. `float("1.2.3")` and `float(".")` raise `ValueError`). -/
def validFloatLit (l : List Char) : Bool :=
  (l.all (fun c => c.isDigit || c == '.')) && decide (l.count '.' ≤ 1)
    && (l.any Char.isDigit)

/-- Python `float()` on a digit/dot string; `Option.none` models `ValueError`. -/
def parseCleanFloat (l : List Char) : Option ℚ :=
  if validFloatLit l then
    let ip := l.takeWhile (fun c => !(c == '.'))
    let rest := l.dropWhile (fun c => !(c == '.'))
    match rest with
    | [] => some ((digitsVal ip : ℚ))
    | _ :: fp => some ((digitsVal ip : ℚ) + (digitsVal fp : ℚ) / ((10 : ℚ) ^ fp.length))
  else Option.none

/-- The `total_amount` sanitization block of `analyze`: only string amounts
are rewritten; an unparseable remainder raises (`.error`). -/
def sanitizeAmount (d : List (String × JVal)) : Except String (List (String × JVal)) :=
  match jgetD d "total_amount" (.jnum 0) with
  | .jstr s =>
      let clean := cleanAmount s
      if clean.isEmpty then .ok (jset d "total_amount" (.jnum 0))
      else
        match parseCleanFloat clean with
        | some q => .ok (jset d "total_amount" (.jnum q))
        | Option.none => .error "could not convert string to float"
  | _ => .ok d

/-- `if 'confidence' not in data: data['confidence'] = 85`. -/
def ensureConfidence (d : List (String × JVal)) : List (String × JVal) :=
  if jhas d "confidence" then d else jset d "confidence" (.jnum 85)

/-- The mock record returned by the outer `except` handler of `analyze`. -/
def defaultResult : List (String × JVal) :=
  [("merchant_name", .jstr "Unknown Merchant"),
   ("total_amount", .jnum 0),
   ("currency", .jstr "₦"),
   ("date", .jstr ""),
   ("transaction_id", .jstr ""),
   ("ocr_text", .jstr "OCR extraction unavailable - Gemini API error"),
   ("confidence", .jnum 0),
   ("visual_anomalies", .jarr []),
   ("error", .jstr "Gemini API unavailable - check GEMINI_API_KEY and model access")]

/-- The `ValueError` message raised when the secondary model also fails. -/
def fallbackMsg : String :=
  "Gemini API unavailable. Please verify your GEMINI_API_KEY has model access."

/-- One progress emission as seen from `analyze`; the collaborator may raise. -/
def emitStage (ps : Option (String → Except String Unit)) (stage : String) :
    Except String Unit :=
  match ps with
  | Option.none => .ok ()
  | some p => p stage

/-- The guarded model call of `analyze` with its one-step fallback chain.
Returns the outcome, the updated handle state, and the list of model names to
which a generation request was submitted, in order. -/
def genPhase (a : Agent) (gen : String → Except String String) :
    Except String String × Agent × List String :=
  match gen a.model with
  | .ok t => (.ok t, a, [a.model])
  | .error e1 =>
      if is404 e1 then
        let a' : Agent := { a with model := secondaryModel }
        match gen secondaryModel with
        | .ok t => (.ok t, a', [a.model, secondaryModel])
        | .error _ => (.error fallbackMsg, a', [a.model, secondaryModel])
      else (.error e1, a, [a.model])

/-- The response-processing tail of `analyze`: fence cleanup, `json.loads`,
`.get`-based sanitization (raising on a non-dict), confidence default. -/
def parsePhase (jl : String → Except String JVal) (raw : String) :
    Except String (List (String × JVal)) :=
  match jl (stripFences raw) with
  | .error e => .error e
  | .ok (.jobj d) =>
      match sanitizeAmount d with
      | .error e => .error e
      | .ok d1 => .ok (ensureConfidence d1)
  | .ok _ => .error "object has no attribute get"

/-- The body of the outer `try` of `VisionAgent.analyze`: start emission,
image load, model call with fallback, parsing, completion emission.  The
handle state and the submission trace survive an exception (the Python
assignment to `self.model` persists). -/
def analyzeE (a : Agent) (ps : Option (String → Except String Unit))
    (li : Except String Unit) (gen : String → Except String String)
    (jl : String → Except String JVal) :
    Except String (List (String × JVal)) × Agent × List String :=
  match emitStage ps "ocr_started" with
  | .error e => (.error e, a, [])
  | .ok _ =>
      match li with
      | .error e => (.error e, a, [])
      | .ok _ =>
          match genPhase a gen with
          | (.error e, a', cs) => (.error e, a', cs)
          | (.ok raw, a', cs) =>
              match parsePhase jl raw with
              | .error e => (.error e, a', cs)
              | .ok d =>
                  match emitStage ps "ocr_complete" with
                  | .error e => (.error e, a', cs)
                  | .ok _ => (.ok d, a', cs)

/-- Result of one `analyze` call: the returned record, the agent state after
the call, and the trace of model submissions. -/
structure AnalyzeOut where
  result : List (String × JVal)
  agent : Agent
  calls : List String

/-- `VisionAgent.analyze`: the outer `except Exception` converts any raised
error into the mock `defaultResult`. -/
def analyze (a : Agent) (ps : Option (String → Except String Unit))
    (li : Except String Unit) (gen : String → Except String String)
    (jl : String → Except String JVal) : AnalyzeOut :=
  match analyzeE a ps li gen jl with
  | (.ok d, a', cs) => ⟨d, a', cs⟩
  | (.error _, a', cs) => ⟨defaultResult, a', cs⟩

/-- The eight required `ExtractionResult` fields. -/
def requiredFields : List String :=
  ["merchant_name", "total_amount", "currency", "date", "transaction_id",
   "ocr_text", "confidence", "visual_anomalies"]

/-- All eight required fields are present in a record. -/
def hasAll (d : List (String × JVal)) : Bool :=
  requiredFields.all (fun k => jhas d k)

/-- All eight required fields are present when the value is a JSON object;
vacuous otherwise (a non-object raises before its fields matter). -/
def objAll : JVal → Bool
  | .jobj d => hasAll d
  | _ => true

/-! ### ProgressEmitter (src/app/core/progress_emitter.py) -/

/-- The value of a Python or NumPy float: a finite rational, NaN, or an
infinity. -/
inductive FVal where
  | finite (q : ℚ)
  | nan
  | inf
  | ninf
deriving DecidableEq

/-- Python values that can appear in an `emit` `details` payload, including
the NumPy scalar and array types handled by `NumpyJsonEncoder`. -/
inductive PyVal where
  | pynone
  | pybool (b : Bool)
  | pyint (n : ℤ)
  | pyfloat (x : FVal)
  | pystr (s : String)
  | pylist (l : List PyVal)
  | pydict (d : List (String × PyVal))
  | npint (n : ℤ)
  | npfloat64 (x : FVal)
  | npfloat32 (x : FVal)
  | npbool (b : Bool)
  | nparray (l : List PyVal)

/-- The tree that `json.dumps` actually serializes after native handling and
`default`-hook conversion. -/
inductive JTok where
  | null
  | bool (b : Bool)
  | int (n : ℤ)
  | float (x : FVal)
  | str (s : String)
  | arr (l : List JTok)
  | obj (d : List (String × JTok))

/-- `NumpyJsonEncoder.default` on an `np.floating` scalar:
`float(obj) if not (np.isnan(obj) or np.isinf(obj)) else 0.0`. -/
def coerce32 : FVal → FVal
  | .finite q => .finite q
  | _ => .finite 0

/-!
What `json.dumps(value, cls=NumpyJsonEncoder)` serializes.

The serializer handles `None`, `bool`, `int`, `str`, `list`, `dict` and
`float` natively; `np.float64` is a subclass of Python `float`, so a NaN
`np.float64` takes the native float path and the `default` hook never runs
for it.  `np.int64`, `np.float32`, `np.bool_` and `np.ndarray` are not native
types, so they go through `NumpyJsonEncoder.default`: integers and bools are
converted, `np.float32` NaN/Inf becomes `0.0`, and an `ndarray` becomes
`obj.tolist()` — whose elements are plain Python scalars (NaN preserved) —
which is then serialized natively.  The `tol` flag marks values produced by
`tolist()`.
-/
mutual
def normVal : Bool → PyVal → JTok
  | _, .pynone => .null
  | _, .pybool b => .bool b
  | _, .pyint n => .int n
  | _, .pyfloat x => .float x
  | _, .pystr s => .str s
  | _, .pylist l => .arr (normList l)
  | _, .pydict d => .obj (normObj d)
  | _, .npint n => .int n
  | _, .npfloat64 x => .float x
  | tol, .npfloat32 x => .float (if tol then x else coerce32 x)
  | _, .npbool b => .bool b
  | _, .nparray l => .arr (normArr l)
def normList : List PyVal → List JTok
  | [] => []
  | v :: vs => normVal false v :: normList vs
def normArr : List PyVal → List JTok
  | [] => []
  | v :: vs => normVal true v :: normArr vs
def normObj : List (String × PyVal) → List (String × JTok)
  | [] => []
  | p :: ps => (p.1, normVal false p.2) :: normObj ps
end

def escChar (c : Char) : String :=
  if c = '"' then "\\\"" else if c = '\\' then "\\\\"
  else if c = '\n' then "\\n" else if c = '\t' then "\\t"
  else if c = '\r' then "\\r" else String.singleton c

def jsonQuote (s : String) : String :=
  "\"" ++ String.join ((chars s).map escChar) ++ "\""

/-- Python `repr` of a float value as emitted by `json.dumps`: the kernel
emits the JavaScript constants `NaN` and `Infinity` for non-finite floats
(invalid under RFC 8259). -/
def encFloat : FVal → String
  | .nan => "NaN"
  | .inf => "Infinity"
  | .ninf => "-Infinity"
  | .finite q => if q.den = 1 then toString q.num ++ ".0" else toString q

def joinComma (l : List String) : String := String.intercalate ", " l

mutual
def renderJ : JTok → String
  | .null => "null"
  | .bool b => if b then "true" else "false"
  | .int n => toString n
  | .float x => encFloat x
  | .str s => jsonQuote s
  | .arr l => "[" ++ joinComma (renderList l) ++ "]"
  | .obj d => "\x7b" ++ joinComma (renderObj d) ++ "\x7d"
def renderList : List JTok → List String
  | [] => []
  | v :: vs => renderJ v :: renderList vs
def renderObj : List (String × JTok) → List String
  | [] => []
  | p :: ps => (jsonQuote p.1 ++ ": " ++ renderJ p.2) :: renderObj ps
end

/-- `json.dumps(value, cls=NumpyJsonEncoder)` with default separators. -/
def pyDumps (v : PyVal) : String := renderJ (normVal false v)

/-- The skip test in `emit`: `value is None or value == \x7b\x7d or value == []`. -/
def skipValue : PyVal → Bool
  | .pynone => true
  | .pydict [] => true
  | .pylist [] => true
  | _ => false

/-- `isinstance(value, (str, int, float, bool))`; `np.float64` is a subclass
of Python `float` so it passes, while `np.int64`, `np.float32` and
`np.bool_` are not subclasses of the Python scalar types. -/
def isPrimitive : PyVal → Bool
  | .pystr _ => true
  | .pyint _ => true
  | .pyfloat _ => true
  | .pybool _ => true
  | .npfloat64 _ => true
  | _ => false

/-- Python truthiness, for the `if details:` guard. -/
def pyTruthy : PyVal → Bool
  | .pynone => false
  | .pybool b => b
  | .pyint n => !(n == 0)
  | .pyfloat (.finite q) => !(q == 0)
  | .pyfloat _ => true
  | .pystr s => !s.isEmpty
  | .pylist l => !l.isEmpty
  | .pydict d => !d.isEmpty
  | .npint n => !(n == 0)
  | .npfloat64 (.finite q) => !(q == 0)
  | .npfloat64 _ => true
  | .npfloat32 (.finite q) => !(q == 0)
  | .npfloat32 _ => true
  | .npbool b => b
  | .nparray l => !l.isEmpty

/-- Best-effort model of `str(value)`, used only on the non-dict `details`
path. -/
def pyStr : PyVal → String
  | .pystr s => s
  | .pyint n => toString n
  | .pybool b => if b then "True" else "False"
  | .pynone => "None"
  | v => renderJ (normVal false v)

/-- Arguments of `ProgressEmitter.emit`. -/
structure EmitArgs where
  agent : String
  stage : String
  message : String
  progress : ℤ
  details : Option PyVal

/-- The detail-flattening loop of `emit` over a dict `details`. -/
def buildDetailFields (d : List (String × PyVal)) : List (String × PyVal) :=
  d.filterMap (fun p =>
    if skipValue p.2 then Option.none
    else if isPrimitive p.2 then some ("progress_detail_" ++ p.1, p.2)
    else some ("progress_detail_" ++ p.1, .pystr (pyDumps p.2)))

/-- The five scalar fields plus the mirrored timestamp; the two
`datetime.utcnow()` calls are passed in separately. -/
def baseFields (a : EmitArgs) (now1 now2 : String) : List (String × PyVal) :=
  [("progress_agent", .pystr a.agent),
   ("progress_stage", .pystr a.stage),
   ("progress_message", .pystr a.message),
   ("progress_percentage", .pyint a.progress),
   ("progress_timestamp", .pystr now1),
   ("last_updated", .pystr now2)]

/-- The full `update_data` dict assembled by `emit`. -/
def updateData (a : EmitArgs) (now1 now2 : String) : List (String × PyVal) :=
  baseFields a now1 now2 ++
    (match a.details with
     | Option.none => []
     | some dv =>
         if pyTruthy dv then
           match dv with
           | .pydict d => buildDetailFields d
           | other => [("progress_detail_info", .pystr (pyStr other))]
         else [])

/-- The body of `emit`'s `try`: build the update and write it through the
document-store oracle `w`. -/
def emitE (a : EmitArgs) (now1 now2 : String)
    (w : List (String × PyVal) → Except String Unit) :
    Except String (List (String × PyVal)) :=
  match w (updateData a now1 now2) with
  | .error e => .error e
  | .ok _ => .ok (updateData a now1 now2)

/-- `ProgressEmitter.emit`: the outer handler logs and swallows every
exception; `some u` reports a successful write of `u`, `Option.none` a
swallowed failure. -/
def emit (a : EmitArgs) (now1 now2 : String)
    (w : List (String × PyVal) → Except String Unit) :
    Option (List (String × PyVal)) :=
  match emitE a now1 now2 w with
  | .ok u => some u
  | .error _ => Option.none

def isDetailKey (k : String) : Bool := pyStartsWith k "progress_detail_"

/-- The `progress_detail_<key>` fields of an update. -/
def detailFields (u : List (String × PyVal)) : List (String × PyVal) :=
  u.filter (fun p => isDetailKey p.1)

/-! ### Helper lemmas about the record operations -/

theorem jhas_eq_isSome (d : List (String × JVal)) (k : String) :
    jhas d k = (jget d k).isSome := by
  unfold jhas jget
  cases d.find? (fun p => p.1 == k) <;> rfl

theorem jget_map_self (d : List (String × JVal)) (k : String) (v : JVal)
    (h : jhas d k = true) :
    jget (d.map (fun p => if p.1 == k then (k, v) else p)) k = some v := by
  induction d with
  | nil => simp [jhas, List.find?] at h
  | cons p t ih =>
      unfold jget at ih ⊢
      rw [List.map_cons]
      by_cases hp : (p.1 == k) = true
      · rw [if_pos hp]
        simp [List.find?_cons]
      · have hp' : (p.1 == k) = false := by simpa using hp
        rw [if_neg hp]
        have ht : jhas t k = true := by
          unfold jhas at h
          simp only [List.find?_cons, hp'] at h
          exact h
        have hres := ih ht
        simp only [List.find?_cons, hp']
        exact hres

theorem jget_map_ne (d : List (String × JVal)) (k k' : String) (v : JVal)
    (hne : k' ≠ k) :
    jget (d.map (fun p => if p.1 == k then (k, v) else p)) k' = jget d k' := by
  have hkk' : ((k : String) == k') = false := by
    rw [beq_eq_false_iff_ne]
    exact fun hh => hne hh.symm
  induction d with
  | nil => rfl
  | cons p t ih =>
      unfold jget at ih ⊢
      rw [List.map_cons]
      by_cases hp : (p.1 == k) = true
      · have hpk : p.1 = k := by simpa using hp
        have hp' : (p.1 == k') = false := by rw [hpk]; exact hkk'
        rw [if_pos hp]
        simp only [List.find?_cons, hkk', hp']
        exact ih
      · rw [if_neg hp]
        by_cases hq : (p.1 == k') = true
        · simp only [List.find?_cons, hq]
        · have hq' : (p.1 == k') = false := by simpa using hq
          simp only [List.find?_cons, hq']
          exact ih

theorem jget_jset_self (d : List (String × JVal)) (k : String) (v : JVal) :
    jget (jset d k v) k = some v := by
  unfold jset
  by_cases h : jhas d k
  · rw [if_pos h]
    exact jget_map_self d k v h
  · rw [if_neg h]
    have hn : d.find? (fun p => p.1 == k) = Option.none := by
      unfold jhas at h
      exact Option.not_isSome_iff_eq_none.mp (by simpa using h)
    unfold jget
    rw [List.find?_append, hn]
    simp [List.find?_cons]

theorem jget_jset_ne (d : List (String × JVal)) (k k' : String) (v : JVal)
    (hne : k' ≠ k) : jget (jset d k v) k' = jget d k' := by
  unfold jset
  by_cases h : jhas d k
  · rw [if_pos h]
    exact jget_map_ne d k k' v hne
  · rw [if_neg h]
    have hkk' : ((k : String) == k') = false := by
      rw [beq_eq_false_iff_ne]
      exact fun hh => hne hh.symm
    unfold jget
    rw [List.find?_append]
    simp only [List.find?_cons, hkk', List.find?_nil]
    cases d.find? (fun p => p.1 == k') <;> rfl

theorem jhas_jset_self (d : List (String × JVal)) (k : String) (v : JVal) :
    jhas (jset d k v) k = true := by
  rw [jhas_eq_isSome, jget_jset_self]
  rfl

theorem jhas_jset_ne (d : List (String × JVal)) (k k' : String) (v : JVal)
    (hne : k' ≠ k) : jhas (jset d k v) k' = jhas d k' := by
  rw [jhas_eq_isSome, jget_jset_ne d k k' v hne, jhas_eq_isSome]

theorem jhas_jset_of_jhas (d : List (String × JVal)) (k k' : String) (v : JVal)
    (h : jhas d k' = true) : jhas (jset d k v) k' = true := by
  by_cases hne : k' = k
  · subst hne
    exact jhas_jset_self d k' v
  · rwa [jhas_jset_ne d k k' v hne]

theorem hasAll_jset (d : List (String × JVal)) (k : String) (v : JVal)
    (h : hasAll d = true) : hasAll (jset d k v) = true := by
  unfold hasAll at h ⊢
  rw [List.all_eq_true] at h ⊢
  intro f hf
  exact jhas_jset_of_jhas d k f v (h f hf)

theorem jhas_ensureConfidence (d : List (String × JVal)) :
    jhas (ensureConfidence d) "confidence" = true := by
  unfold ensureConfidence
  by_cases h : jhas d "confidence"
  · rwa [if_pos h]
  · rw [if_neg h]
    exact jhas_jset_self d "confidence" (.jnum 85)

theorem ensureConfidence_of_has (d : List (String × JVal))
    (h : jhas d "confidence" = true) : ensureConfidence d = d := by
  unfold ensureConfidence
  rw [if_pos h]

theorem hasAll_ensureConfidence (d : List (String × JVal))
    (h : hasAll d = true) : hasAll (ensureConfidence d) = true := by
  unfold ensureConfidence
  by_cases hc : jhas d "confidence"
  · rwa [if_pos hc]
  · rw [if_neg hc]
    exact hasAll_jset d "confidence" (.jnum 85) h

/-- A successful sanitization either leaves the record unchanged or rewrites
exactly the `total_amount` field. -/
theorem sanitizeAmount_shape (d d' : List (String × JVal))
    (h : sanitizeAmount d = .ok d') :
    d' = d ∨ ∃ q : ℚ, d' = jset d "total_amount" (.jnum q) := by
  unfold sanitizeAmount at h
  cases hv : jgetD d "total_amount" (.jnum 0) with
  | jstr s =>
      rw [hv] at h
      dsimp only at h
      by_cases he : (cleanAmount s).isEmpty
      · rw [if_pos he] at h
        exact Or.inr ⟨0, by cases h; rfl⟩
      · rw [if_neg he] at h
        cases hp : parseCleanFloat (cleanAmount s) with
        | some q =>
            rw [hp] at h
            exact Or.inr ⟨q, by cases h; rfl⟩
        | none =>
            rw [hp] at h
            cases h
  | jnull => rw [hv] at h; cases h; exact Or.inl rfl
  | jbool b => rw [hv] at h; cases h; exact Or.inl rfl
  | jnum q => rw [hv] at h; cases h; exact Or.inl rfl
  | jarr l => rw [hv] at h; cases h; exact Or.inl rfl
  | jobj o => rw [hv] at h; cases h; exact Or.inl rfl

theorem hasAll_sanitizeAmount (d d' : List (String × JVal))
    (hall : hasAll d = true) (h : sanitizeAmount d = .ok d') :
    hasAll d' = true := by
  rcases sanitizeAmount_shape d d' h with h1 | ⟨q, h2⟩
  · rwa [h1]
  · rw [h2]
    exact hasAll_jset d "total_amount" (.jnum q) hall

theorem jhas_sanitizeAmount (d d' : List (String × JVal)) (k : String)
    (hk : jhas d k = true) (h : sanitizeAmount d = .ok d') :
    jhas d' k = true := by
  rcases sanitizeAmount_shape d d' h with h1 | ⟨q, h2⟩
  · rwa [h1]
  · rw [h2]
    exact jhas_jset_of_jhas d "total_amount" k (.jnum q) hk

/-! ### Fence-stripping lemmas -/

theorem pyStrip_wrap (a b : Char) (ha : a.isWhitespace = false)
    (hb : b.isWhitespace = false) (mid : List Char) :
    pyStrip (ofChars (a :: (mid ++ [b]))) = ofChars (a :: (mid ++ [b])) := by
  simp [pyStrip, chars, ofChars, List.dropWhile_cons, ha, hb, List.reverse_append]

theorem pyStrip_of_wrap_str (s : String) :
    pyStrip ("```json" ++ s ++ "```") = "```json" ++ s ++ "```" := by
  have hd : chars ("```json" ++ s ++ "```") =
      '\x60' :: ((['\x60', '\x60', 'j', 's', 'o', 'n'] ++ chars s ++ ['\x60', '\x60'])
        ++ ['\x60']) := by
    show ("```json" ++ s ++ "```").data = _
    rw [String.data_append, String.data_append]
    show ['\x60', '\x60', '\x60', 'j', 's', 'o', 'n'] ++ s.data ++ ['\x60', '\x60', '\x60'] = _
    simp [chars, List.append_assoc]
  have hX : ("```json" ++ s ++ "```") =
      ofChars ('\x60' :: ((['\x60', '\x60', 'j', 's', 'o', 'n'] ++ chars s ++ ['\x60', '\x60'])
        ++ ['\x60'])) := congrArg ofChars hd
  rw [hX]
  exact pyStrip_wrap '\x60' '\x60' (by decide) (by decide) _

theorem stripFences_plain (s : String) (hs : pyStrip s = s)
    (h1 : pyStartsWith s "```json" = false) (h2 : pyEndsWith s "```" = false) :
    stripFences s = s := by
  unfold stripFences
  rw [hs]
  simp only [h1, Bool.false_eq_true, if_false, h2]
  exact hs

theorem stripFences_fenced (s : String) (hs : pyStrip s = s) :
    stripFences ("```json" ++ s ++ "```") = s := by
  have hdata : chars ("```json" ++ s ++ "```") =
      "```json".data ++ (chars s ++ "```".data) := by
    show ("```json" ++ s ++ "```").data = _
    rw [String.data_append, String.data_append, List.append_assoc]
    rfl
  have hstart : pyStartsWith ("```json" ++ s ++ "```") "```json" = true := by
    unfold pyStartsWith
    rw [hdata]
    simp [chars]
  have hdrop : pyDropLeft ("```json" ++ s ++ "```") 7 =
      ofChars (chars s ++ "```".data) := by
    unfold pyDropLeft
    rw [hdata, List.drop_left' (by rfl)]
  have hend : pyEndsWith (ofChars (chars s ++ "```".data)) "```" = true := by
    unfold pyEndsWith
    simp [chars, ofChars]
  have htake : pyDropRight (ofChars (chars s ++ "```".data)) 3 = s := by
    unfold pyDropRight
    show ofChars (List.take ((chars s ++ "```".data).length - 3) (chars s ++ "```".data)) = s
    have hlen : (chars s ++ "```".data).length - 3 = (chars s).length := by
      simp [List.length_append]
    rw [hlen, List.take_left]
    rfl
  unfold stripFences
  rw [pyStrip_of_wrap_str]
  simp only [hstart, if_true, hdrop, hend, htake]
  exact hs

/-! ### Control-flow lemmas for `analyze` -/

def agentFlash : Agent := { modelName := primaryModel, model := primaryModel }

def agentPro : Agent := { modelName := primaryModel, model := secondaryModel }

theorem analyze_of_analyzeE_error (a : Agent) (ps : Option (String → Except String Unit))
    (li : Except String Unit) (gen : String → Except String String)
    (jl : String → Except String JVal) (e : String) (a' : Agent) (cs : List String)
    (h : analyzeE a ps li gen jl = (.error e, a', cs)) :
    analyze a ps li gen jl = ⟨defaultResult, a', cs⟩ := by
  unfold analyze
  rw [h]

theorem analyze_of_analyzeE_ok (a : Agent) (ps : Option (String → Except String Unit))
    (li : Except String Unit) (gen : String → Except String String)
    (jl : String → Except String JVal) (d : List (String × JVal)) (a' : Agent)
    (cs : List String) (h : analyzeE a ps li gen jl = (.ok d, a', cs)) :
    analyze a ps li gen jl = ⟨d, a', cs⟩ := by
  unfold analyze
  rw [h]

/-- Every run either returns the default record or the output of a successful
parse phase. -/
theorem analyze_result_cases (a : Agent) (ps : Option (String → Except String Unit))
    (li : Except String Unit) (gen : String → Except String String)
    (jl : String → Except String JVal) :
    (analyze a ps li gen jl).result = defaultResult
    ∨ ∃ raw d, parsePhase jl raw = .ok d ∧ (analyze a ps li gen jl).result = d := by
  unfold analyze analyzeE
  cases h1 : emitStage ps "ocr_started" with
  | error e => left; rfl
  | ok u =>
      cases u
      cases li with
      | error e => left; rfl
      | ok u2 =>
          cases u2
          dsimp only
          rcases h2 : genPhase a gen with ⟨res, a', cs⟩
          cases res with
          | error e => left; rfl
          | ok raw =>
              dsimp only
              cases h3 : parsePhase jl raw with
              | error e => left; rfl
              | ok d =>
                  dsimp only
                  cases h4 : emitStage ps "ocr_complete" with
                  | error e => left; rfl
                  | ok u3 =>
                      cases u3
                      right
                      exact ⟨raw, d, h3, rfl⟩

/-- A successful parse phase returns the sanitized, confidence-completed
object of a parsed JSON dict. -/
theorem parsePhase_ok_shape (jl : String → Except String JVal) (raw : String)
    (d : List (String × JVal)) (h : parsePhase jl raw = .ok d) :
    ∃ d0 d1, jl (stripFences raw) = .ok (.jobj d0) ∧ sanitizeAmount d0 = .ok d1
      ∧ d = ensureConfidence d1 := by
  unfold parsePhase at h
  cases hj : jl (stripFences raw) with
  | error e => rw [hj] at h; cases h
  | ok v =>
      rw [hj] at h
      cases v with
      | jobj d0 =>
          dsimp only at h
          cases hsan : sanitizeAmount d0 with
          | error e => rw [hsan] at h; cases h
          | ok d1 =>
              rw [hsan] at h
              cases h
              exact ⟨d0, d1, rfl, hsan, rfl⟩
      | jnull => cases h
      | jbool b => cases h
      | jnum q => cases h
      | jstr s => cases h
      | jarr l => cases h

/-- The four possible outcomes of the guarded model call. -/
theorem genPhase_cases (a : Agent) (gen : String → Except String String) :
    (∃ t, gen a.model = .ok t ∧ genPhase a gen = (.ok t, a, [a.model]))
    ∨ (∃ e1, gen a.model = .error e1 ∧ is404 e1 = false
        ∧ genPhase a gen = (.error e1, a, [a.model]))
    ∨ (∃ e1 t, gen a.model = .error e1 ∧ is404 e1 = true ∧ gen secondaryModel = .ok t
        ∧ genPhase a gen =
            (.ok t, { a with model := secondaryModel }, [a.model, secondaryModel]))
    ∨ (∃ e1 e2, gen a.model = .error e1 ∧ is404 e1 = true
        ∧ gen secondaryModel = .error e2
        ∧ genPhase a gen =
            (.error fallbackMsg, { a with model := secondaryModel },
              [a.model, secondaryModel])) := by
  unfold genPhase
  cases hg : gen a.model with
  | ok t => exact Or.inl ⟨t, rfl, rfl⟩
  | error e1 =>
      by_cases h4 : is404 e1 = true
      · cases hg2 : gen secondaryModel with
        | ok t =>
            right; right; left
            exact ⟨e1, t, rfl, h4, rfl, by simp [h4]⟩
        | error e2 =>
            right; right; right
            exact ⟨e1, e2, rfl, h4, rfl, by simp [h4]⟩
      · have h4' : is404 e1 = false := by simpa using h4
        right; left
        exact ⟨e1, rfl, h4', by simp [h4']⟩

theorem analyzeE_start_error (a : Agent) (ps : Option (String → Except String Unit))
    (li : Except String Unit) (gen : String → Except String String)
    (jl : String → Except String JVal) (e : String)
    (h1 : emitStage ps "ocr_started" = .error e) :
    analyzeE a ps li gen jl = (.error e, a, []) := by
  unfold analyzeE
  rw [h1]

theorem analyzeE_li_error (a : Agent) (ps : Option (String → Except String Unit))
    (gen : String → Except String String) (jl : String → Except String JVal) (e : String)
    (h1 : emitStage ps "ocr_started" = .ok ()) :
    analyzeE a ps (.error e) gen jl = (.error e, a, []) := by
  unfold analyzeE
  rw [h1]

theorem analyzeE_gen_error (a : Agent) (ps : Option (String → Except String Unit))
    (li : Except String Unit) (gen : String → Except String String)
    (jl : String → Except String JVal) (e : String) (a' : Agent) (cs : List String)
    (h1 : emitStage ps "ocr_started" = .ok ()) (h2 : li = .ok ())
    (h3 : genPhase a gen = (.error e, a', cs)) :
    analyzeE a ps li gen jl = (.error e, a', cs) := by
  subst h2
  unfold analyzeE
  rw [h1]
  dsimp only
  rw [h3]

theorem analyzeE_parse_error (a : Agent) (ps : Option (String → Except String Unit))
    (li : Except String Unit) (gen : String → Except String String)
    (jl : String → Except String JVal) (raw : String) (e : String) (a' : Agent)
    (cs : List String)
    (h1 : emitStage ps "ocr_started" = .ok ()) (h2 : li = .ok ())
    (h3 : genPhase a gen = (.ok raw, a', cs)) (h4 : parsePhase jl raw = .error e) :
    analyzeE a ps li gen jl = (.error e, a', cs) := by
  subst h2
  unfold analyzeE
  rw [h1]
  dsimp only
  rw [h3]
  dsimp only
  rw [h4]

theorem analyzeE_complete_error (a : Agent) (ps : Option (String → Except String Unit))
    (li : Except String Unit) (gen : String → Except String String)
    (jl : String → Except String JVal) (raw : String) (d : List (String × JVal))
    (e : String) (a' : Agent) (cs : List String)
    (h1 : emitStage ps "ocr_started" = .ok ()) (h2 : li = .ok ())
    (h3 : genPhase a gen = (.ok raw, a', cs)) (h4 : parsePhase jl raw = .ok d)
    (h5 : emitStage ps "ocr_complete" = .error e) :
    analyzeE a ps li gen jl = (.error e, a', cs) := by
  subst h2
  unfold analyzeE
  rw [h1]
  dsimp only
  rw [h3]
  dsimp only
  rw [h4]
  dsimp only
  rw [h5]

theorem analyzeE_full_ok (a : Agent) (ps : Option (String → Except String Unit))
    (li : Except String Unit) (gen : String → Except String String)
    (jl : String → Except String JVal) (raw : String) (d : List (String × JVal))
    (a' : Agent) (cs : List String)
    (h1 : emitStage ps "ocr_started" = .ok ()) (h2 : li = .ok ())
    (h3 : genPhase a gen = (.ok raw, a', cs)) (h4 : parsePhase jl raw = .ok d)
    (h5 : emitStage ps "ocr_complete" = .ok ()) :
    analyzeE a ps li gen jl = (.ok d, a', cs) := by
  subst h2
  unfold analyzeE
  rw [h1]
  dsimp only
  rw [h3]
  dsimp only
  rw [h4]
  dsimp only
  rw [h5]

theorem analyze_agent_eq (a : Agent) (ps : Option (String → Except String Unit))
    (li : Except String Unit) (gen : String → Except String String)
    (jl : String → Except String JVal) :
    (analyze a ps li gen jl).agent = (analyzeE a ps li gen jl).2.1 := by
  unfold analyze
  rcases h : analyzeE a ps li gen jl with ⟨res, a', cs⟩
  cases res <;> rfl

theorem analyze_calls_eq (a : Agent) (ps : Option (String → Except String Unit))
    (li : Except String Unit) (gen : String → Except String String)
    (jl : String → Except String JVal) :
    (analyze a ps li gen jl).calls = (analyzeE a ps li gen jl).2.2 := by
  unfold analyze
  rcases h : analyzeE a ps li gen jl with ⟨res, a', cs⟩
  cases res <;> rfl

/-- The agent state after a call is either unchanged or switched to the
secondary model, and the submission trace is one of the three possible
shapes. -/
theorem analyzeE_state_shape (a : Agent) (ps : Option (String → Except String Unit))
    (li : Except String Unit) (gen : String → Except String String)
    (jl : String → Except String JVal) :
    ((analyzeE a ps li gen jl).2.1 = a
      ∨ (analyzeE a ps li gen jl).2.1 = { a with model := secondaryModel })
    ∧ ((analyzeE a ps li gen jl).2.2 = []
      ∨ (analyzeE a ps li gen jl).2.2 = [a.model]
      ∨ (analyzeE a ps li gen jl).2.2 = [a.model, secondaryModel]) := by
  cases h1 : emitStage ps "ocr_started" with
  | error e =>
      rw [analyzeE_start_error a ps li gen jl e h1]
      exact ⟨Or.inl rfl, Or.inl rfl⟩
  | ok u =>
      cases u
      cases li with
      | error e =>
          rw [analyzeE_li_error a ps gen jl e h1]
          exact ⟨Or.inl rfl, Or.inl rfl⟩
      | ok u2 =>
          cases u2
          rcases genPhase_cases a gen with ⟨t, hg, hgp⟩ | ⟨e1, hg, h404, hgp⟩
            | ⟨e1, t, hg, h404, hg2, hgp⟩ | ⟨e1, e2, hg, h404, hg2, hgp⟩
          · cases h4 : parsePhase jl t with
            | error e =>
                rw [analyzeE_parse_error a ps _ gen jl t e a [a.model] h1 rfl hgp h4]
                exact ⟨Or.inl rfl, Or.inr (Or.inl rfl)⟩
            | ok d =>
                cases h5 : emitStage ps "ocr_complete" with
                | error e =>
                    rw [analyzeE_complete_error a ps _ gen jl t d e a [a.model] h1 rfl hgp h4 h5]
                    exact ⟨Or.inl rfl, Or.inr (Or.inl rfl)⟩
                | ok u3 =>
                    cases u3
                    rw [analyzeE_full_ok a ps _ gen jl t d a [a.model] h1 rfl hgp h4 h5]
                    exact ⟨Or.inl rfl, Or.inr (Or.inl rfl)⟩
          · rw [analyzeE_gen_error a ps _ gen jl e1 a [a.model] h1 rfl hgp]
            exact ⟨Or.inl rfl, Or.inr (Or.inl rfl)⟩
          · cases h4 : parsePhase jl t with
            | error e =>
                rw [analyzeE_parse_error a ps _ gen jl t e _ _ h1 rfl hgp h4]
                exact ⟨Or.inr rfl, Or.inr (Or.inr rfl)⟩
            | ok d =>
                cases h5 : emitStage ps "ocr_complete" with
                | error e =>
                    rw [analyzeE_complete_error a ps _ gen jl t d e _ _ h1 rfl hgp h4 h5]
                    exact ⟨Or.inr rfl, Or.inr (Or.inr rfl)⟩
                | ok u3 =>
                    cases u3
                    rw [analyzeE_full_ok a ps _ gen jl t d _ _ h1 rfl hgp h4 h5]
                    exact ⟨Or.inr rfl, Or.inr (Or.inr rfl)⟩
          · rw [analyzeE_gen_error a ps _ gen jl fallbackMsg _ _ h1 rfl hgp]
            exact ⟨Or.inr rfl, Or.inr (Or.inr rfl)⟩

/-! ### Claim theorems -/

/-- C9: construction of the vision agent fails immediately with the
configuration error (`GEMINI_API_KEY is required`) exactly when the
credential is missing or empty; any non-empty credential is accepted and
yields the primary-model handles.  `mkAgent` takes no remote-model oracle,
so no remote call can be reached during construction. -/
theorem construction_requires_credential (k : Option String) :
    ((k = Option.none ∨ k = some "") →
      mkAgent k = .error "GEMINI_API_KEY is required")
    ∧ (∀ s, s ≠ "" → k = some s →
        mkAgent k = .ok { modelName := primaryModel, model := primaryModel })
    ∧ (isErr (mkAgent k) = true → k = Option.none ∨ k = some "") := by
  refine ⟨?_, ?_, ?_⟩
  · rintro (h | h) <;> subst h <;> rfl
  · rintro s hs h
    subst h
    unfold mkAgent
    dsimp only
    rw [if_neg hs]
  · intro h
    cases k with
    | none => exact Or.inl rfl
    | some s =>
        by_cases hs : s = ""
        · exact Or.inr (by rw [hs])
        · exfalso
          unfold mkAgent at h
          dsimp only at h
          rw [if_neg hs] at h
          simp [isErr] at h

/-- Witness for C9: a concrete non-empty key is accepted. -/
theorem construction_requires_credential_witness :
    mkAgent (some "test-key") =
      .ok { modelName := primaryModel, model := primaryModel } :=
  (construction_requires_credential (some "test-key")).2.1 "test-key" (by decide) rfl

/-- C8: `emit` never raises: a failing document-store write is swallowed
(`Option.none`, the logged-and-dropped case), and a successful write stores
exactly the assembled update. -/
theorem emit_swallows_failures (a : EmitArgs) (now1 now2 : String)
    (w : List (String × PyVal) → Except String Unit) :
    (∀ e, w (updateData a now1 now2) = .error e → emit a now1 now2 w = Option.none)
    ∧ (w (updateData a now1 now2) = .ok () →
        emit a now1 now2 w = some (updateData a now1 now2)) := by
  constructor
  · intro e h
    unfold emit emitE
    rw [h]
  · intro h
    unfold emit emitE
    rw [h]

def emitArgsX : EmitArgs :=
  { agent := "vision", stage := "ocr_started", message := "m", progress := 10,
    details := Option.none }

/-- Witness for C8: a failing store write is swallowed. -/
theorem emit_swallows_failures_witness :
    emit emitArgsX "t" "t" (fun _ => .error "firestore unavailable") = Option.none :=
  (emit_swallows_failures emitArgsX "t" "t"
    (fun _ => .error "firestore unavailable")).1 "firestore unavailable" rfl

/-- C7: detail filtering: a pair whose value is `None`, an empty dict or an
empty list contributes nothing; a primitive value is stored directly under
`progress_detail_<key>`; on the spec's concrete example only
`progress_detail_d` (value 5) is written among the detail fields. -/
theorem emit_detail_filtering :
    (∀ k v d, skipValue v = true →
      buildDetailFields ((k, v) :: d) = buildDetailFields d)
    ∧ skipValue .pynone = true
    ∧ skipValue (.pydict []) = true
    ∧ skipValue (.pylist []) = true
    ∧ (∀ k v d, skipValue v = false → isPrimitive v = true →
        buildDetailFields ((k, v) :: d)
          = ("progress_detail_" ++ k, v) :: buildDetailFields d)
    ∧ detailFields (updateData
        { agent := "vision", stage := "s", message := "m", progress := 10,
          details := some (.pydict [("a", .pynone), ("b", .pylist []),
            ("c", .pydict []), ("d", .pyint 5)]) } "t1" "t2")
      = [("progress_detail_d", .pyint 5)] := by
  refine ⟨?_, rfl, rfl, rfl, ?_, rfl⟩
  · intro k v d h
    simp [buildDetailFields, h]
  · intro k v d h hp
    simp [buildDetailFields, h, hp]

/-- Witness for C7: a primitive pair is stored directly. -/
theorem emit_detail_filtering_witness :
    buildDetailFields [("d", PyVal.pyint 5)]
      = [("progress_detail_" ++ "d", PyVal.pyint 5)] := by
  have h := emit_detail_filtering.2.2.2.2.1 "d" (.pyint 5) [] rfl rfl
  simpa [buildDetailFields] using h

def nanDetailArgs : EmitArgs :=
  { agent := "vision", stage := "forensics", message := "m", progress := 20,
    details := some (.pydict [("x", .pylist [.npfloat64 .nan])]) }

/-- C6 (code bug): a NaN `np.float64` inside a non-primitive detail value is
serialized as the literal `NaN` (np.float64 is a subclass of Python float,
so the encoder's `default` hook is bypassed), not as `0.0`, producing a
string that is not RFC-valid JSON; the same happens for an `ndarray`, whose
`tolist()` output preserves NaN as Python floats.  Only non-float-subclass
NumPy scalars such as `np.float32` get the documented `0.0` replacement. -/
theorem nan_detail_invalid_json :
    emit nanDetailArgs "t1" "t2" (fun _ => .ok ())
      = some (updateData nanDetailArgs "t1" "t2")
    ∧ detailFields (updateData nanDetailArgs "t1" "t2")
      = [("progress_detail_x", .pystr "[NaN]")]
    ∧ strContains "[NaN]" "0.0" = false
    ∧ strContains "[NaN]" "NaN" = true
    ∧ pyDumps (.nparray [.npfloat64 .nan]) = "[NaN]"
    ∧ pyDumps (.pylist [.npfloat32 .nan]) = "[0.0]" := by
  exact ⟨rfl, rfl, by decide, by decide, rfl, rfl⟩

/-- C2: `analyze` never raises to its caller.  Whatever the behavior of the
progress collaborator, the image loader, the remote model and the JSON
parser, any raised error makes the call return exactly the fixed default
record, whose confidence is 0, whose text fields are the fixed placeholders
and whose error field is a non-empty string. -/
theorem analyze_never_raises (a : Agent) (ps : Option (String → Except String Unit))
    (li : Except String Unit) (gen : String → Except String String)
    (jl : String → Except String JVal) :
    (∀ e a' cs, analyzeE a ps li gen jl = (.error e, a', cs) →
      (analyze a ps li gen jl).result = defaultResult)
    ∧ (∀ e, li = .error e → (analyze a ps li gen jl).result = defaultResult)
    ∧ ((∀ m, isErr (gen m) = true) → (analyze a ps li gen jl).result = defaultResult)
    ∧ ((∀ t, isErr (jl t) = true) → (analyze a ps li gen jl).result = defaultResult)
    ∧ (∀ p, ps = some p → (∀ st, isErr (p st) = true) →
        (analyze a ps li gen jl).result = defaultResult)
    ∧ jget defaultResult "confidence" = some (.jnum 0)
    ∧ jget defaultResult "merchant_name" = some (.jstr "Unknown Merchant")
    ∧ jget defaultResult "total_amount" = some (.jnum 0)
    ∧ jget defaultResult "ocr_text"
        = some (.jstr "OCR extraction unavailable - Gemini API error")
    ∧ (∃ msg, jget defaultResult "error" = some (.jstr msg) ∧ msg ≠ "") := by
  have hdef : ∀ e a' cs, analyzeE a ps li gen jl = (.error e, a', cs) →
      (analyze a ps li gen jl).result = defaultResult := by
    intro e a' cs h
    rw [analyze_of_analyzeE_error a ps li gen jl e a' cs h]
  refine ⟨hdef, ?_, ?_, ?_, ?_, rfl, rfl, rfl, rfl, ⟨_, rfl, by decide⟩⟩
  · intro e h
    subst h
    cases h1 : emitStage ps "ocr_started" with
    | error e2 => exact hdef e2 a [] (analyzeE_start_error a ps _ gen jl e2 h1)
    | ok u =>
        cases u
        exact hdef e a [] (analyzeE_li_error a ps gen jl e h1)
  · intro hgen
    cases h1 : emitStage ps "ocr_started" with
    | error e2 => exact hdef e2 a [] (analyzeE_start_error a ps li gen jl e2 h1)
    | ok u =>
        cases u
        cases li with
        | error e => exact hdef e a [] (analyzeE_li_error a ps gen jl e h1)
        | ok u2 =>
            cases u2
            rcases genPhase_cases a gen with ⟨t, hg, hgp⟩ | ⟨e1, hg, h404, hgp⟩
              | ⟨e1, t, hg, h404, hg2, hgp⟩ | ⟨e1, e2, hg, h404, hg2, hgp⟩
            · have := hgen a.model
              rw [hg] at this
              simp [isErr] at this
            · exact hdef e1 a [a.model]
                (analyzeE_gen_error a ps _ gen jl e1 a [a.model] h1 rfl hgp)
            · have := hgen secondaryModel
              rw [hg2] at this
              simp [isErr] at this
            · exact hdef fallbackMsg _ _
                (analyzeE_gen_error a ps _ gen jl fallbackMsg _ _ h1 rfl hgp)
  · intro hjl
    cases h1 : emitStage ps "ocr_started" with
    | error e2 => exact hdef e2 a [] (analyzeE_start_error a ps li gen jl e2 h1)
    | ok u =>
        cases u
        cases li with
        | error e => exact hdef e a [] (analyzeE_li_error a ps gen jl e h1)
        | ok u2 =>
            cases u2
            have hperr : ∀ raw, ∃ e, parsePhase jl raw = .error e := by
              intro raw
              unfold parsePhase
              cases hj : jl (stripFences raw) with
              | error e => exact ⟨e, rfl⟩
              | ok v =>
                  have := hjl (stripFences raw)
                  rw [hj] at this
                  simp [isErr] at this
            rcases genPhase_cases a gen with ⟨t, hg, hgp⟩ | ⟨e1, hg, h404, hgp⟩
              | ⟨e1, t, hg, h404, hg2, hgp⟩ | ⟨e1, e2, hg, h404, hg2, hgp⟩
            · rcases hperr t with ⟨e, hpe⟩
              exact hdef e a [a.model]
                (analyzeE_parse_error a ps _ gen jl t e a [a.model] h1 rfl hgp hpe)
            · exact hdef e1 a [a.model]
                (analyzeE_gen_error a ps _ gen jl e1 a [a.model] h1 rfl hgp)
            · rcases hperr t with ⟨e, hpe⟩
              exact hdef e _ _
                (analyzeE_parse_error a ps _ gen jl t e _ _ h1 rfl hgp hpe)
            · exact hdef fallbackMsg _ _
                (analyzeE_gen_error a ps _ gen jl fallbackMsg _ _ h1 rfl hgp)
  · intro p hp hfail
    subst hp
    cases he : p "ocr_started" with
    | error e =>
        exact hdef e a []
          (analyzeE_start_error a _ li gen jl e (by simp [emitStage, he]))
    | ok u =>
        have := hfail "ocr_started"
        rw [he] at this
        simp [isErr] at this

/-- Witness for C2: with every collaborator failing, the caller still gets
the default record. -/
theorem analyze_never_raises_witness :
    (analyze agentFlash Option.none (.error "image not found")
      (fun _ => .error "net down") (fun _ => .error "bad json")).result
      = defaultResult :=
  (analyze_never_raises agentFlash Option.none (.error "image not found")
      (fun _ => .error "net down") (fun _ => .error "bad json")).2.1
    "image not found" rfl

/-- C1 (counterexample): on a successful remote call whose JSON object is
empty, the returned record does not contain `merchant_name` (nor any other
required field except the defaulted `confidence`), so the claimed invariant
fails on the success path. -/
theorem analyze_missing_field_cx :
    jhas (analyze agentFlash Option.none (.ok ()) (fun _ => .ok "x")
      (fun _ => .ok (.jobj []))).result "merchant_name" = false
    ∧ (analyze agentFlash Option.none (.ok ()) (fun _ => .ok "x")
      (fun _ => .ok (.jobj []))).result = [("confidence", .jnum 85)] := by
  exact ⟨rfl, rfl⟩

/-- C1 (amended): every failure outcome returns the complete default record;
the returned record always contains `confidence`; and whenever every value
the JSON parser can return is an object carrying all eight required fields,
the returned record carries all eight.  A successful response omitting a
required field other than `confidence` yields a record missing that field. -/
theorem analyze_fields_amended :
    hasAll defaultResult = true
    ∧ (∀ a ps li gen jl,
        jhas (analyze a ps li gen jl).result "confidence" = true)
    ∧ (∀ a ps li gen jl, (∀ t v, jl t = .ok v → objAll v = true) →
        hasAll (analyze a ps li gen jl).result = true) := by
  refine ⟨by decide, ?_, ?_⟩
  · intro a ps li gen jl
    rcases analyze_result_cases a ps li gen jl with h | ⟨raw, d, hp, h⟩
    · rw [h]; decide
    · rw [h]
      rcases parsePhase_ok_shape jl raw d hp with ⟨d0, d1, hj, hsan, hd⟩
      rw [hd]
      exact jhas_ensureConfidence d1
  · intro a ps li gen jl hobj
    rcases analyze_result_cases a ps li gen jl with h | ⟨raw, d, hp, h⟩
    · rw [h]; decide
    · rw [h]
      rcases parsePhase_ok_shape jl raw d hp with ⟨d0, d1, hj, hsan, hd⟩
      have hd0 : hasAll d0 = true := by
        have := hobj (stripFences raw) (.jobj d0) hj
        simpa [objAll] using this
      rw [hd]
      exact hasAll_ensureConfidence d1 (hasAll_sanitizeAmount d0 d1 hd0 hsan)

def fullObjX : List (String × JVal) :=
  [("merchant_name", .jstr "Acme Store"), ("total_amount", .jnum 2500),
   ("currency", .jstr "$"), ("date", .jstr "2025-01-01"),
   ("transaction_id", .jstr "TX1"), ("ocr_text", .jstr "Acme receipt"),
   ("confidence", .jnum 92), ("visual_anomalies", .jarr [])]

/-- Witness for C1 (amended): a complete response yields a complete record. -/
theorem analyze_fields_amended_witness :
    hasAll (analyze agentFlash Option.none (.ok ()) (fun _ => .ok "x")
      (fun _ => .ok (.jobj fullObjX))).result = true :=
  analyze_fields_amended.2.2 agentFlash Option.none (.ok ()) (fun _ => .ok "x")
    (fun _ => .ok (.jobj fullObjX)) (fun t v hv => by cases hv; decide)

/-- C4: the fallback policy of `analyze`: a "not found"-class primary failure
triggers exactly one retry against the secondary model; if that also fails,
the configuration-style `ValueError` naming the credential is raised into
the outer handler (which folds it into the default record); a non-"not
found" primary failure propagates without any retry. -/
theorem fallback_policy (a : Agent) (ps : Option (String → Except String Unit))
    (li : Except String Unit) (gen : String → Except String String)
    (jl : String → Except String JVal)
    (hps : emitStage ps "ocr_started" = .ok ()) (hli : li = .ok ()) :
    (∀ e t, gen a.model = .error e → is404 e = true → gen secondaryModel = .ok t →
      (analyze a ps li gen jl).calls = [a.model, secondaryModel])
    ∧ (∀ e e2, gen a.model = .error e → is404 e = true →
        gen secondaryModel = .error e2 →
        (analyzeE a ps li gen jl).1 = .error fallbackMsg
        ∧ (analyze a ps li gen jl).result = defaultResult
        ∧ (analyze a ps li gen jl).calls = [a.model, secondaryModel])
    ∧ (∀ e, gen a.model = .error e → is404 e = false →
        (analyzeE a ps li gen jl).1 = .error e
        ∧ (analyze a ps li gen jl).calls = [a.model])
    ∧ strContains fallbackMsg "GEMINI_API_KEY" = true := by
  have hcalls : ∀ raw a' cs, genPhase a gen = (.ok raw, a', cs) →
      (analyze a ps li gen jl).calls = cs := by
    intro raw a' cs hgp
    rw [analyze_calls_eq]
    cases h4 : parsePhase jl raw with
    | error e =>
        rw [analyzeE_parse_error a ps li gen jl raw e a' cs hps hli hgp h4]
    | ok d =>
        cases h5 : emitStage ps "ocr_complete" with
        | error e =>
            rw [analyzeE_complete_error a ps li gen jl raw d e a' cs hps hli hgp h4 h5]
        | ok u =>
            cases u
            rw [analyzeE_full_ok a ps li gen jl raw d a' cs hps hli hgp h4 h5]
  refine ⟨?_, ?_, ?_, by decide⟩
  · intro e t hg h404 hg2
    rcases genPhase_cases a gen with ⟨t', hg', hgp⟩ | ⟨e1, hg', h404', hgp⟩
      | ⟨e1, t', hg', h404', hg2', hgp⟩ | ⟨e1, e2, hg', h404', hg2', hgp⟩
    · rw [hg] at hg'; cases hg'
    · rw [hg] at hg'
      injection hg' with h
      subst h
      rw [h404] at h404'; cases h404'
    · exact hcalls t' _ _ hgp
    · rw [hg2] at hg2'; cases hg2'
  · intro e e2 hg h404 hg2
    rcases genPhase_cases a gen with ⟨t', hg', hgp⟩ | ⟨e1, hg', h404', hgp⟩
      | ⟨e1, t', hg', h404', hg2', hgp⟩ | ⟨e1, e2', hg', h404', hg2', hgp⟩
    · rw [hg] at hg'; cases hg'
    · rw [hg] at hg'
      injection hg' with h
      subst h
      rw [h404] at h404'; cases h404'
    · rw [hg2] at hg2'; cases hg2'
    · have hE := analyzeE_gen_error a ps li gen jl fallbackMsg _ _ hps hli hgp
      refine ⟨by rw [hE], ?_, ?_⟩
      · rw [analyze_of_analyzeE_error a ps li gen jl fallbackMsg _ _ hE]
      · rw [analyze_calls_eq, hE]
  · intro e hg h404
    rcases genPhase_cases a gen with ⟨t', hg', hgp⟩ | ⟨e1, hg', h404', hgp⟩
      | ⟨e1, t', hg', h404', hg2', hgp⟩ | ⟨e1, e2', hg', h404', hg2', hgp⟩
    · rw [hg] at hg'; cases hg'
    · rw [hg] at hg'
      injection hg' with h
      subst h
      have hE := analyzeE_gen_error a ps li gen jl e _ _ hps hli hgp
      exact ⟨by rw [hE], by rw [analyze_calls_eq, hE]⟩
    · rw [hg] at hg'
      injection hg' with h
      subst h
      rw [h404'] at h404; cases h404
    · rw [hg] at hg'
      injection hg' with h
      subst h
      rw [h404'] at h404; cases h404

def gen404 : String → Except String String :=
  fun m => if m == primaryModel then .error "404 model not found" else .ok "x"

/-- Witness for C4: a 404 primary failure followed by a successful secondary
call submits to exactly the two models in order. -/
theorem fallback_policy_witness :
    (analyze agentFlash Option.none (.ok ()) gen404
      (fun _ => .ok (.jobj []))).calls = [primaryModel, secondaryModel] :=
  (fallback_policy agentFlash Option.none (.ok ()) gen404
      (fun _ => .ok (.jobj [])) rfl rfl).1 "404 model not found" "x" rfl
    (by decide) rfl

theorem parseCleanFloat_nonneg (l : List Char) (q : ℚ)
    (h : parseCleanFloat l = some q) : 0 ≤ q := by
  unfold parseCleanFloat at h
  by_cases hv : validFloatLit l = true
  · rw [if_pos hv] at h
    dsimp only at h
    cases hr : l.dropWhile (fun c => !(c == '.')) with
    | nil =>
        rw [hr] at h
        injection h with h
        subst h
        positivity
    | cons c fp =>
        rw [hr] at h
        injection h with h
        subst h
        positivity
  · rw [if_neg hv] at h
    cases h

def negAmountObj : List (String × JVal) :=
  [("merchant_name", .jstr "Acme"), ("total_amount", .jnum (-5)),
   ("currency", .jstr "$"), ("date", .jstr ""), ("transaction_id", .jstr ""),
   ("ocr_text", .jstr "t"), ("confidence", .jnum 90),
   ("visual_anomalies", .jarr [])]

def missingAmountObj : List (String × JVal) :=
  [("merchant_name", .jstr "Acme"), ("currency", .jstr "$"),
   ("confidence", .jnum 90)]

/-- C5 (counterexample): a response carrying `total_amount` as the number
-5 is returned with the negative amount unchanged (the sanitizer only
rewrites strings), and a response without `total_amount` yields a record
with no `total_amount` field at all (no 0.0 default). -/
theorem amount_nonneg_cx :
    jget (analyze agentFlash Option.none (.ok ()) (fun _ => .ok "x")
      (fun _ => .ok (.jobj negAmountObj))).result "total_amount"
      = some (.jnum (-5))
    ∧ ((-5 : ℚ) < 0)
    ∧ jhas (analyze agentFlash Option.none (.ok ()) (fun _ => .ok "x")
      (fun _ => .ok (.jobj missingAmountObj))).result "total_amount" = false := by
  exact ⟨rfl, by norm_num, rfl⟩

/-- C5 (amended): a `total_amount` that arrived as a string sanitizes to a
non-negative value (every non-digit/non-dot character, minus signs
included, is stripped before parsing), and the failure default carries 0;
but a numeric `total_amount` passes through unchanged — possibly negative —
and a missing `total_amount` stays absent instead of defaulting to 0.0. -/
theorem amount_sanitizer_amended :
    (∀ l q, parseCleanFloat l = some q → 0 ≤ q)
    ∧ (∀ d d' s, jget d "total_amount" = some (.jstr s) →
        sanitizeAmount d = .ok d' →
        ∃ q : ℚ, 0 ≤ q ∧ jget d' "total_amount" = some (.jnum q))
    ∧ (∀ d q, jget d "total_amount" = some (.jnum q) → sanitizeAmount d = .ok d)
    ∧ (∀ d, jhas d "total_amount" = false → sanitizeAmount d = .ok d)
    ∧ jget defaultResult "total_amount" = some (.jnum 0) := by
  refine ⟨parseCleanFloat_nonneg, ?_, ?_, ?_, rfl⟩
  · intro d d' s hs hsan
    have hD : jgetD d "total_amount" (.jnum 0) = .jstr s := by
      unfold jgetD
      rw [hs]
      rfl
    unfold sanitizeAmount at hsan
    rw [hD] at hsan
    dsimp only at hsan
    by_cases he : (cleanAmount s).isEmpty
    · rw [if_pos he] at hsan
      injection hsan with hsan
      subst hsan
      exact ⟨0, le_refl 0, jget_jset_self d "total_amount" (.jnum 0)⟩
    · rw [if_neg he] at hsan
      cases hp : parseCleanFloat (cleanAmount s) with
      | some q =>
          rw [hp] at hsan
          injection hsan with hsan
          subst hsan
          exact ⟨q, parseCleanFloat_nonneg _ q hp,
            jget_jset_self d "total_amount" (.jnum q)⟩
      | none =>
          rw [hp] at hsan
          cases hsan
  · intro d q hq
    have hD : jgetD d "total_amount" (.jnum 0) = .jnum q := by
      unfold jgetD
      rw [hq]
      rfl
    unfold sanitizeAmount
    rw [hD]
  · intro d hno
    have hg : jget d "total_amount" = Option.none := by
      rw [jhas_eq_isSome] at hno
      exact Option.not_isSome_iff_eq_none.mp (by simp [hno])
    have hD : jgetD d "total_amount" (.jnum 0) = .jnum 0 := by
      unfold jgetD
      rw [hg]
      rfl
    unfold sanitizeAmount
    rw [hD]

/-- Witness for C5 (amended): a record whose amount is already numeric is
passed through unchanged. -/
theorem amount_sanitizer_amended_witness :
    sanitizeAmount fullObjX = .ok fullObjX :=
  amount_sanitizer_amended.2.2.1 fullObjX 2500 rfl

def badAmountObj : List (String × JVal) :=
  [("merchant_name", .jstr "Acme Store"), ("total_amount", .jstr "1.2.3"),
   ("currency", .jstr "$"), ("date", .jstr "2025-01-01"),
   ("transaction_id", .jstr "TX1"), ("ocr_text", .jstr "t"),
   ("confidence", .jnum 92), ("visual_anomalies", .jarr [])]

/-- C3 (counterexample): a well-formed response carrying all eight fields
whose `total_amount` string strips to "1.2.3" (two decimal points) makes
`float()` raise, so `analyze` returns the default record instead of a
record matching the parsed fields. -/
theorem analyze_roundtrip_cx :
    hasAll badAmountObj = true
    ∧ jget badAmountObj "merchant_name" = some (.jstr "Acme Store")
    ∧ (analyze agentFlash Option.none (.ok ()) (fun _ => .ok "x")
        (fun _ => .ok (.jobj badAmountObj))).result = defaultResult
    ∧ jget defaultResult "merchant_name" = some (.jstr "Unknown Merchant") := by
  exact ⟨by decide, rfl, rfl, rfl⟩

/-- C3 (amended): for a well-formed JSON object response with all eight
fields — bare or wrapped in a ```json markdown fence — the returned record
is the parsed object with `total_amount` sanitized, PROVIDED a string
amount's stripped remainder parses as a float (at most one decimal point
and at least one digit; an empty remainder gives 0.0).  A string amount
whose remainder is not a valid float literal instead raises and yields the
default record (see the counterexample).  The spec's examples hold:
"1,500" parses to 1500 and "₦1,500.75" to 1500.75. -/
theorem analyze_roundtrip_amended (a : Agent) (s raw : String)
    (gen : String → Except String String) (jl : String → Except String JVal)
    (d d' : List (String × JVal))
    (hs : pyStrip s = s)
    (h1 : pyStartsWith s "```json" = false)
    (h2 : pyEndsWith s "```" = false)
    (hjl : jl s = .ok (.jobj d))
    (hall : hasAll d = true)
    (hsan : sanitizeAmount d = .ok d')
    (hraw : raw = s ∨ raw = "```json" ++ s ++ "```")
    (hgen : gen a.model = .ok raw) :
    (analyze a Option.none (.ok ()) gen jl).result = d'
    ∧ (∀ k, k ≠ "total_amount" → jget d' k = jget d k)
    ∧ parseCleanFloat (cleanAmount "1,500") = some 1500
    ∧ parseCleanFloat (cleanAmount "₦1,500.75") = some ((6003 : ℚ) / 4) := by
  have hstrip : stripFences raw = s := by
    rcases hraw with hr | hr
    · subst hr
      exact stripFences_plain raw hs h1 h2
    · subst hr
      exact stripFences_fenced s hs
  have hconf : jhas d "confidence" = true := by
    unfold hasAll at hall
    rw [List.all_eq_true] at hall
    exact hall "confidence" (by decide)
  have hconf' : jhas d' "confidence" = true :=
    jhas_sanitizeAmount d d' "confidence" hconf hsan
  have hparse : parsePhase jl raw = .ok d' := by
    unfold parsePhase
    rw [hstrip, hjl]
    dsimp only
    rw [hsan]
    dsimp only
    rw [ensureConfidence_of_has d' hconf']
  have hgp : genPhase a gen = (.ok raw, a, [a.model]) := by
    unfold genPhase
    rw [hgen]
  have hE := analyzeE_full_ok a Option.none (.ok ()) gen jl raw d' a [a.model]
    rfl rfl hgp hparse rfl
  refine ⟨?_, ?_, ?_, ?_⟩
  · rw [analyze_of_analyzeE_ok a Option.none (.ok ()) gen jl d' a [a.model] hE]
  · intro k hk
    rcases sanitizeAmount_shape d d' hsan with hh | ⟨q, hh⟩
    · rw [hh]
    · rw [hh]
      exact jget_jset_ne d "total_amount" k (.jnum q) hk
  · rw [show parseCleanFloat (cleanAmount "1,500") = some (((1500 : ℕ) : ℚ)) from rfl]
    norm_num
  · rw [show parseCleanFloat (cleanAmount "₦1,500.75")
        = some (((1500 : ℕ) : ℚ) + ((75 : ℕ) : ℚ) / (10 : ℚ) ^ (2 : ℕ)) from rfl]
    norm_num

/-- Witness for C3 (amended): a fenced, fully-populated response with a
numeric amount round-trips unchanged. -/
theorem analyze_roundtrip_amended_witness :
    (analyze agentFlash Option.none (.ok ())
      (fun _ => .ok ("```json" ++ "x" ++ "```"))
      (fun _ => .ok (.jobj fullObjX))).result = fullObjX :=
  (analyze_roundtrip_amended agentFlash "x" ("```json" ++ "x" ++ "```")
    (fun _ => .ok ("```json" ++ "x" ++ "```")) (fun _ => .ok (.jobj fullObjX))
    fullObjX fullObjX (by decide) (by decide) (by decide) rfl (by decide) rfl
    (Or.inr rfl) rfl).1

/-- C10: once a call has fallen back (the primary model returned a "not
found"-class error), the instance's model handle is permanently the
secondary model: the falling-back call itself ends with the handle on the
secondary model whatever happens afterwards, and any later call on the
updated instance submits first (and only) to the secondary model — the
primary model is never tried again. -/
theorem fallback_sticky (a : Agent) (ps1 : Option (String → Except String Unit))
    (li1 : Except String Unit) (gen1 : String → Except String String)
    (jl1 : String → Except String JVal) (e : String)
    (hm : a.model = primaryModel)
    (hps : emitStage ps1 "ocr_started" = .ok ()) (hli : li1 = .ok ())
    (h1 : gen1 primaryModel = .error e) (h404 : is404 e = true) :
    (analyze a ps1 li1 gen1 jl1).agent.model = secondaryModel
    ∧ (∀ a' ps2 li2 gen2 jl2, a'.model = secondaryModel →
        (analyze a' ps2 li2 gen2 jl2).agent.model = secondaryModel
        ∧ ((analyze a' ps2 li2 gen2 jl2).calls = []
          ∨ ((analyze a' ps2 li2 gen2 jl2).calls.head? = some secondaryModel
            ∧ primaryModel ∉ (analyze a' ps2 li2 gen2 jl2).calls))) := by
  have hagentOk : ∀ raw a'' cs, genPhase a gen1 = (.ok raw, a'', cs) →
      (analyze a ps1 li1 gen1 jl1).agent = a'' := by
    intro raw a'' cs hgp
    rw [analyze_agent_eq]
    cases h4 : parsePhase jl1 raw with
    | error er =>
        rw [analyzeE_parse_error a ps1 li1 gen1 jl1 raw er a'' cs hps hli hgp h4]
    | ok dd =>
        cases h5 : emitStage ps1 "ocr_complete" with
        | error er =>
            rw [analyzeE_complete_error a ps1 li1 gen1 jl1 raw dd er a'' cs
              hps hli hgp h4 h5]
        | ok u =>
            cases u
            rw [analyzeE_full_ok a ps1 li1 gen1 jl1 raw dd a'' cs hps hli hgp h4 h5]
  constructor
  · rcases genPhase_cases a gen1 with ⟨t, hg', hgp⟩ | ⟨e1, hg', h404', hgp⟩
      | ⟨e1, t, hg', h404', hg2', hgp⟩ | ⟨e1, e2, hg', h404', hg2', hgp⟩
    · rw [hm, h1] at hg'
      cases hg'
    · rw [hm, h1] at hg'
      injection hg' with hh
      subst hh
      rw [h404] at h404'
      cases h404'
    · rw [hagentOk t _ _ hgp]
    · have hE := analyzeE_gen_error a ps1 li1 gen1 jl1 fallbackMsg _ _ hps hli hgp
      rw [analyze_agent_eq, hE]
  · intro a' ps2 li2 gen2 jl2 ha'
    have hshape := analyzeE_state_shape a' ps2 li2 gen2 jl2
    constructor
    · rw [analyze_agent_eq]
      rcases hshape.1 with h | h
      · rw [h]
        exact ha'
      · rw [h]
    · rw [analyze_calls_eq]
      rcases hshape.2 with h | h | h
      · exact Or.inl h
      · right
        rw [h, ha']
        exact ⟨rfl, by decide⟩
      · right
        rw [h, ha']
        exact ⟨rfl, by decide⟩

/-- Witness for C10: after a 404-triggered fallback the handle points to the
secondary model. -/
theorem fallback_sticky_witness :
    (analyze agentFlash Option.none (.ok ()) gen404
      (fun _ => .ok (.jobj []))).agent.model = secondaryModel :=
  (fallback_sticky agentFlash Option.none (.ok ()) gen404
    (fun _ => .ok (.jobj [])) "404 model not found" rfl rfl rfl rfl
    (by decide)).1

end Confirmit
